import Mathlib

set_option maxHeartbeats 1000000

/-! Shallow embedding of `src/main.py` (AnyStreamPro backend) and proofs
about it.

Modelling conventions: Lean `String` models Python `str`; `Option` models a
dict key that may be absent (a key present with value `None` behaves, in
every use this file covers, exactly like an absent key and is modelled as
`none`); `Bool` models Python truthiness where noted; byte contents are
`List Nat`; the filesystem is modelled by explicit presence flags or entry
lists, and `unlink` on an existing path always succeeds in the model (the
code suppresses OS-level deletion errors, which have no counterpart here). -/

/-- The characters removed by `sanitize_filename` (main.py line 57,
regex character class `[<>:"/\\|?*]`). -/
def invalidChar (c : Char) : Bool :=
  c == '<' || c == '>' || c == ':' || c == '"' || c == '/' ||
  c == '\\' || c == '|' || c == '?' || c == '*'

/-- main.py lines 55-57: `re.sub(r'[<>:"/\\|?*]', '', name)[:200]` — drop
every invalid character, then truncate to the first 200 characters. -/
def sanitize_filename (s : String) : String :=
  List.asString ((s.toList.filter (fun c => !invalidChar c)).take 200)

/-- ASCII whitespace as stripped by Python `str.strip()` (the only
whitespace characters that can occur in the strings this program builds). -/
def pyWS (c : Char) : Bool :=
  c == ' ' || c == '\t' || c == '\n' || c == '\r'

/-- Python `str.strip()`: drop leading and trailing whitespace. -/
def pyStrip (s : String) : String :=
  List.asString (((s.toList.dropWhile pyWS).reverse.dropWhile pyWS).reverse)

/-- Python truthiness of an optional string: `None` and `""` are falsy. -/
def strTruthy (s : Option String) : Bool :=
  match s with
  | none => false
  | some v => !(v == "")

/-- main.py lines 148-149: truthiness of `vcodec and vcodec != 'none'` —
the codec key is present, non-empty and not the sentinel `"none"`. -/
def codecTruthy (c : Option String) : Bool :=
  match c with
  | none => false
  | some v => !(v == "") && !(v == "none")

/-- Rendering of `info.get('width', '?')` inside an f-string: the decimal
digits of the dimension, or `"?"` when the key is absent. -/
def dimStr (d : Option Nat) : String :=
  match d with
  | none => "?"
  | some n => toString n

/-- main.py lines 40-47: the `FormatInfo` pydantic model, one catalog
descriptor. -/
structure FormatInfo where
  format_id : String
  ext : String
  resolution : String
  note : String
  type : String
  filesize : Option Nat
  height : Nat
deriving DecidableEq

/-- One raw format record from the extraction engine — the fields main.py
reads off `f` in lines 143-173. `tbr` is the bitrate already truncated to
an integer (Python applies `int(...)` to it); a raw bitrate below 1 kbps
truncates to `0`, which is falsy exactly like Python's falsy check on the
raw value in every case the code distinguishes. -/
structure RawFormat where
  format_id : String
  vcodec : Option String
  acodec : Option String
  height : Option Nat
  width : Option Nat
  ext : Option String
  resolution : Option String
  format_note : Option String
  tbr : Option Nat
  filesize : Option Nat
deriving DecidableEq

/-- The fields of the extraction result `info` that main.py reads. -/
structure ExtractInfo where
  title : Option String
  formats : List RawFormat
  url : Option String
  ext : Option String
  width : Option Nat
  height : Option Nat
  filesize : Option Nat
deriving DecidableEq

/-- main.py lines 148-158: classification of one raw record; `none` models
the `continue` that drops a record with neither codec. -/
def typeLabel (f : RawFormat) : Option String :=
  let has_video := codecTruthy f.vcodec
  let has_audio := codecTruthy f.acodec
  if has_video && !has_audio then some "video"
  else if has_audio && !has_video then some "audio"
  else if has_video && has_audio then some "combined"
  else none

/-- main.py lines 160-163: `note = f.get('format_note', '')`, then when
`tbr` is truthy, `note = f"{note} ({int(bitrate)}kbps)".strip()`. -/
def noteWithBitrate (f : RawFormat) : String :=
  let note := (f.format_note).getD ""
  match f.tbr with
  | some b => if b != 0 then pyStrip (note ++ " (" ++ toString b ++ "kbps)") else note
  | none => note

/-- main.py lines 143-173: the catalog entry built from one raw record
(`none` when the record is dropped). `height` is `f.get('height') or 0`;
`resolution` is `f.get('resolution') or f"{f.get('width','?')}x{height}"`,
where the fallback uses the already-defaulted `height` variable. -/
def mkFormatInfo (f : RawFormat) : Option FormatInfo :=
  let height := (f.height).getD 0
  (typeLabel f).map (fun lbl =>
    { format_id := f.format_id,
      ext := (f.ext).getD "",
      resolution :=
        match f.resolution with
        | some r => if r != "" then r else dimStr f.width ++ "x" ++ toString height
        | none => dimStr f.width ++ "x" ++ toString height,
      note := noteWithBitrate f,
      type := lbl,
      filesize := f.filesize,
      height := height })

/-- main.py lines 129-141: the synthetic `combined` descriptor created when
the extractor returns no format listing but a truthy direct `url`. -/
def syntheticFormat (info : ExtractInfo) : FormatInfo :=
  { format_id := "default",
    ext := (info.ext).getD "mp4",
    resolution := dimStr info.width ++ "x" ++ dimStr info.height,
    note := "Default Source",
    type := "combined",
    filesize := info.filesize,
    height := (info.height).getD 0 }

/-- main.py lines 126-173: the `formats` list as built before the sort —
the synthetic fallback entry (only when `raw_formats` is empty and a direct
`url` is truthy) followed by the per-record entries. -/
def collectFormats (info : ExtractInfo) : List FormatInfo :=
  (if info.formats.isEmpty && strTruthy info.url then [syntheticFormat info] else [])
    ++ info.formats.filterMap mkFormatInfo

/-- Stable insertion (for a descending sort on `height`): the inserted,
originally-earlier element passes over strictly taller entries only, so it
lands before any entry of equal height. -/
def insertDesc (x : FormatInfo) : List FormatInfo → List FormatInfo
  | [] => [x]
  | y :: ys => if x.height < y.height then y :: insertDesc x ys else x :: y :: ys

/-- main.py line 175: `formats.sort(key=lambda x: x.height, reverse=True)`.
Python's sort is documented stable and `reverse=True` is documented not to
reorder equal keys, so the call is the stable descending sort on `height`;
a stable descending insertion sort is that function (it is unique given
sortedness, stability and permutation, proved below). -/
def sortDesc : List FormatInfo → List FormatInfo
  | [] => []
  | x :: xs => insertDesc x (sortDesc xs)

/-- The format catalog returned by `get_formats` (main.py lines 126-183). -/
def buildFormats (info : ExtractInfo) : List FormatInfo :=
  sortDesc (collectFormats info)

/-- The classification table of spec section 4.1 as a pure function of
(hasVideo, hasAudio); `none` means the record is dropped. -/
def pureClass : Bool → Bool → Option String
  | true, false => some "video"
  | false, true => some "audio"
  | true, true => some "combined"
  | false, false => none

/-- One entry under the workspace root: whether it is a regular file, and
its last-modified time in seconds. -/
structure FileEntry where
  isFile : Bool
  mtime : Int
deriving DecidableEq

/-- main.py lines 59-68 (`cleanup_old_files`): delete every regular file
whose age `now - mtime` exceeds 3600 seconds; per-file deletion errors are
suppressed by `try/except: pass` (deletion always succeeds in the model). -/
def cleanup_old_files (now : Int) (files : List FileEntry) : List FileEntry :=
  files.filter (fun f => !(f.isFile && decide (now - f.mtime > 3600)))

/-- Observable steps of the two request handlers, in the order the handler
bodies perform them. -/
inductive Ev where
  | sweep
  | writeCookies
  | extract
  | dlVideo
  | dlAudio
  | runCombiner
  | respond
deriving DecidableEq

/-- Environment of one `get_formats` request: the `COOKIES_CONTENT`
environment variable and the collaborator's extraction outcome. -/
structure FormatsEnv where
  cookiesContent : Option String
  extractResult : Except String ExtractInfo

/-- main.py lines 84-188: order of effects in `get_formats` —
`cleanup_old_files()` first (line 87), then cookie materialization, then
the extraction call, then the response (success or the 400 error). -/
def get_formats_events (env : FormatsEnv) : List Ev :=
  Ev.sweep ::
    ((if strTruthy env.cookiesContent then [Ev.writeCookies] else [])
      ++ [Ev.extract, Ev.respond])

/-- Presence flags for the three job workspace files
(`{job_id}_video.mp4`, `{job_id}_audio.m4a`, `{job_id}_merged.mp4`). -/
structure JobFS where
  video : Bool
  audio : Bool
  output : Bool
deriving DecidableEq

/-- main.py lines 292-297: one iteration of the error-path cleanup loop,
`if f.exists(): try: f.unlink() except: pass` — a missing path is skipped
(so deleting an already-absent path is not an error). -/
def unlinkIfExists (b : Bool) : Bool := if b then false else b

/-- The error-path cleanup over the three job paths (main.py lines
290-297). -/
def purgeJob (fs : JobFS) : JobFS :=
  { video := unlinkIfExists fs.video,
    audio := unlinkIfExists fs.audio,
    output := unlinkIfExists fs.output }

/-- Result of `download_merged`: a streaming response carrying the
suggested filename, or an HTTP error with a status and detail string. -/
inductive DLResult where
  | streaming (filename : String)
  | httpError (status : Nat) (detail : String)
deriving DecidableEq

/-- Outcomes of the collaborators during one `download_merged` request.
`videoLeftover` / `audioLeftover` / `outputOnFail` say whether the
corresponding file exists on disk when that step fails (a failed fetch or
combiner run may or may not leave a partial file; the model covers both). -/
structure DownloadEnv where
  cookiesContent : Option String
  metaFetch : Except String ExtractInfo
  videoFetch : Except String Unit
  videoLeftover : Bool
  audioFetch : Except String Unit
  audioLeftover : Bool
  ffmpegReturncode : Nat
  ffmpegStderr : String
  outputOnFail : Bool

/-- main.py lines 190-298 (`download_merged`): metadata fetch for the
title, video fetch, audio fetch, combiner run, then either the streaming
response (after the explicit unlinks of the two inputs, lines 263-266) or
the `except` path — `purgeJob` over all three paths followed by
`HTTPException(status_code=500, detail=str(e))`, where the combiner failure
message is `f"FFmpeg failed: {process.stderr.decode()}"` (line 260).
Returns the response and the final presence of the three job files. -/
def download_merged (env : DownloadEnv) : DLResult × JobFS :=
  let fs0 : JobFS := { video := false, audio := false, output := false }
  match env.metaFetch with
  | Except.error e => (DLResult.httpError 500 e, purgeJob fs0)
  | Except.ok info =>
    let title := sanitize_filename ((info.title).getD "video")
    match env.videoFetch with
    | Except.error e =>
      (DLResult.httpError 500 e, purgeJob { fs0 with video := env.videoLeftover })
    | Except.ok _ =>
      let fs1 := { fs0 with video := true }
      match env.audioFetch with
      | Except.error e =>
        (DLResult.httpError 500 e, purgeJob { fs1 with audio := env.audioLeftover })
      | Except.ok _ =>
        let fs2 := { fs1 with audio := true }
        if env.ffmpegReturncode != 0 then
          (DLResult.httpError 500 ("FFmpeg failed: " ++ env.ffmpegStderr),
           purgeJob { fs2 with output := env.outputOnFail })
        else
          (DLResult.streaming (title ++ ".mp4"),
           { video := false, audio := false, output := true })

/-- main.py lines 190-298: order of effects in `download_merged` — cookie
materialization, metadata fetch, the two stream fetches, the combiner run,
then the response. Notably there is no `cleanup_old_files()` call in this
handler (compare `get_formats_events`). -/
def download_events (env : DownloadEnv) : List Ev :=
  (if strTruthy env.cookiesContent then [Ev.writeCookies] else [])
    ++ [Ev.extract]
    ++ (match env.metaFetch with
        | Except.error _ => [Ev.respond]
        | Except.ok _ =>
          Ev.dlVideo ::
            (match env.videoFetch with
             | Except.error _ => [Ev.respond]
             | Except.ok _ =>
               Ev.dlAudio ::
                 (match env.audioFetch with
                  | Except.error _ => [Ev.respond]
                  | Except.ok _ => [Ev.runCombiner, Ev.respond])))

/-- Fuel-indexed chunking loop; the fuel is the byte count, which bounds
the number of reads whenever the chunk size is positive. -/
def readChunksAux (size : Nat) : Nat → List Nat → List (List Nat)
  | 0, _ => []
  | Nat.succ fuel, l =>
    match l with
    | [] => []
    | a :: rest => ((a :: rest).take size) :: readChunksAux size fuel (rest.drop (size - 1))

/-- main.py line 273: `while chunk := f.read(1024 * 1024): yield chunk` —
each read of a regular file returns the next `size` bytes (fewer at the
end), and the loop stops at the first empty read. -/
def readChunksWith (size : Nat) (l : List Nat) : List (List Nat) :=
  readChunksAux size l.length l

/-- The chunk sequence `file_iterator` yields for given file contents
(1 MiB chunks, main.py line 273). -/
def file_iterator_chunks (content : List Nat) : List (List Nat) :=
  readChunksWith 1048576 content

/-- One resume of the `file_iterator` generator (main.py lines 271-279):
while chunks remain the next one is yielded; at end-of-file the `while`
loop exits, the `with` block closes the file and the `unlink` after the
loop runs (its errors suppressed), deleting the output file. The state is
(remaining chunks, whether the output file exists). -/
def file_iterator_next :
    List (List Nat) → Bool → Option (List Nat) × (List (List Nat) × Bool)
  | c :: rest, outputExists => (some c, (rest, outputExists))
  | [], _ => (none, ([], false))

/-- Closing the generator before exhaustion (Python raises `GeneratorExit`
at the suspended `yield` when the consumer aborts, e.g. on client
disconnect): the exception propagates out of the `while` loop, the `with`
block closes the file, and the `unlink` after the loop — which is not in a
`finally` block — is never executed, so the filesystem is unchanged. -/
def file_iterator_close (outputExists : Bool) : Bool := outputExists

/-- Drive the generator through `k` resumes from a given state; returns the
remaining chunks and whether the output file exists. -/
def file_iterator_drive : Nat → List (List Nat) → Bool → List (List Nat) × Bool
  | 0, rem, fs => (rem, fs)
  | Nat.succ k, rem, fs =>
    match file_iterator_next rem fs with
    | (_, (rem2, fs2)) => file_iterator_drive k rem2 fs2

/-- A consumer that takes `k` chunks and then aborts (client disconnect),
closing the generator: returns whether the output file still exists. -/
def file_iterator_abort (chunks : List (List Nat)) (k : Nat) : Bool :=
  file_iterator_close (file_iterator_drive k chunks true).2

/-- A consumer that drains the whole sequence (one resume past the last
chunk, which is where the loop exits and the cleanup runs): returns whether
the output file still exists. -/
def file_iterator_run_all (chunks : List (List Nat)) : Bool :=
  (file_iterator_drive (chunks.length + 1) chunks true).2

/-- A concrete extraction result used by the sample environments. -/
def infoSample : ExtractInfo :=
  { title := some "My:Video/Title*",
    formats := [],
    url := some "http://example.test/stream",
    ext := some "mp4",
    width := some 1280,
    height := some 720,
    filesize := some 1000 }

/-- A concrete download environment in which the combiner exits with
status 2 and diagnostic text `invalid data found` (the spec's scenario). -/
def envMuxFail : DownloadEnv :=
  { cookiesContent := none,
    metaFetch := Except.ok infoSample,
    videoFetch := Except.ok (),
    videoLeftover := false,
    audioFetch := Except.ok (),
    audioLeftover := false,
    ffmpegReturncode := 2,
    ffmpegStderr := "invalid data found",
    outputOnFail := true }

/-- A concrete download environment in which every stage succeeds. -/
def envAllOk : DownloadEnv :=
  { cookiesContent := none,
    metaFetch := Except.ok infoSample,
    videoFetch := Except.ok (),
    videoLeftover := false,
    audioFetch := Except.ok (),
    audioLeftover := false,
    ffmpegReturncode := 0,
    ffmpegStderr := "",
    outputOnFail := false }

/-- A successful download environment whose metadata carries no title. -/
def envNoTitle : DownloadEnv :=
  { envAllOk with metaFetch := Except.ok { infoSample with title := none } }

/-- A concrete formats-request environment. -/
def fenvPlain : FormatsEnv :=
  { cookiesContent := none, extractResult := Except.ok infoSample }

/-- A stale regular workspace file (age 4000 s at `now = 10000`). -/
def feOld : FileEntry := { isFile := true, mtime := 6000 }

/-- A fresh regular workspace file (age 100 s at `now = 10000`). -/
def feNew : FileEntry := { isFile := true, mtime := 9900 }

/-- An extraction result with no format listing, a truthy direct `url`, an
absent `width` and a present `height` — input to the C7 counterexample. -/
def infoNoWidth : ExtractInfo :=
  { title := some "t",
    formats := [],
    url := some "http://example.test/direct",
    ext := some "mp4",
    width := none,
    height := some 720,
    filesize := none }

/-- Like `infoNoWidth` but with both dimensions absent. -/
def infoNoDims : ExtractInfo :=
  { infoNoWidth with height := none }

/-- A raw video-only record of a given height. -/
def rawVideo (h : Nat) : RawFormat :=
  { format_id := "v" ++ toString h,
    vcodec := some "avc1",
    acodec := some "none",
    height := some h,
    width := some 1280,
    ext := some "mp4",
    resolution := none,
    format_note := some "hd",
    tbr := none,
    filesize := none }

/-- The spec's ordering example: records with heights 720, 1080, 480. -/
def infoHeights : ExtractInfo :=
  { title := some "t",
    formats := [rawVideo 720, rawVideo 1080, rawVideo 480],
    url := none,
    ext := none,
    width := none,
    height := none,
    filesize := none }

/-- A raw record with neither codec (one sentinel `"none"`, one absent). -/
def rawNeither : RawFormat :=
  { format_id := "x",
    vcodec := some "none",
    acodec := none,
    height := some 480,
    width := none,
    ext := some "mp4",
    resolution := none,
    format_note := none,
    tbr := none,
    filesize := none }

/-! ## Helper lemmas -/

theorem toList_sanitize (s : String) :
    (sanitize_filename s).toList
      = (s.toList.filter (fun c => !invalidChar c)).take 200 := rfl

theorem mem_insertDesc {x a : FormatInfo} {l : List FormatInfo} :
    a ∈ insertDesc x l ↔ a = x ∨ a ∈ l := by
  induction l with
  | nil => simp [insertDesc]
  | cons y ys ih =>
    simp only [insertDesc]
    by_cases hc : x.height < y.height
    · rw [if_pos hc]
      simp only [List.mem_cons, ih]
      tauto
    · rw [if_neg hc]
      simp only [List.mem_cons]

theorem insertDesc_perm (x : FormatInfo) (l : List FormatInfo) :
    (insertDesc x l).Perm (x :: l) := by
  induction l with
  | nil => simp [insertDesc]
  | cons y ys ih =>
    simp only [insertDesc]
    by_cases hc : x.height < y.height
    · rw [if_pos hc]
      exact (ih.cons y).trans (List.Perm.swap x y ys)
    · rw [if_neg hc]

theorem sortDesc_perm (l : List FormatInfo) : (sortDesc l).Perm l := by
  induction l with
  | nil => exact List.Perm.refl _
  | cons x xs ih =>
    show (insertDesc x (sortDesc xs)).Perm (x :: xs)
    exact (insertDesc_perm x (sortDesc xs)).trans (ih.cons x)

theorem pairwise_insertDesc (x : FormatInfo) (l : List FormatInfo)
    (h : List.Pairwise (fun a b => b.height ≤ a.height) l) :
    List.Pairwise (fun a b => b.height ≤ a.height) (insertDesc x l) := by
  induction l with
  | nil => simp [insertDesc]
  | cons y ys ih =>
    rw [List.pairwise_cons] at h
    obtain ⟨hy, hys⟩ := h
    simp only [insertDesc]
    by_cases hc : x.height < y.height
    · rw [if_pos hc, List.pairwise_cons]
      refine ⟨?_, ih hys⟩
      intro b hb
      rcases mem_insertDesc.mp hb with hbx | hbl
      · subst hbx
        exact Nat.le_of_lt hc
      · exact hy b hbl
    · rw [if_neg hc, List.pairwise_cons]
      have hxy : y.height ≤ x.height := Nat.le_of_not_lt hc
      refine ⟨?_, ?_⟩
      · intro b hb
        rcases List.mem_cons.mp hb with hby | hbl
        · subst hby
          exact hxy
        · exact Nat.le_trans (hy b hbl) hxy
      · rw [List.pairwise_cons]
        exact ⟨hy, hys⟩

theorem sortDesc_sorted (l : List FormatInfo) :
    List.Pairwise (fun a b => b.height ≤ a.height) (sortDesc l) := by
  induction l with
  | nil => simp [sortDesc]
  | cons x xs ih => exact pairwise_insertDesc x (sortDesc xs) ih

theorem filter_height_insertDesc (h : Nat) (x : FormatInfo)
    (l : List FormatInfo) :
    (insertDesc x l).filter (fun z => z.height == h)
      = if x.height == h
          then x :: l.filter (fun z => z.height == h)
          else l.filter (fun z => z.height == h) := by
  induction l with
  | nil => by_cases hx : x.height = h <;> simp [insertDesc, hx]
  | cons y ys ih =>
    simp only [insertDesc]
    by_cases hc : x.height < y.height
    · rw [if_pos hc]
      by_cases hx : x.height = h
      · have hyh : ¬(y.height = h) := by omega
        simp [List.filter_cons, ih, hx, hyh]
      · simp [List.filter_cons, ih, hx]
    · rw [if_neg hc]
      by_cases hx : x.height = h
      · simp [List.filter_cons, hx]
      · simp [List.filter_cons, hx]

theorem filter_height_sortDesc (h : Nat) (l : List FormatInfo) :
    (sortDesc l).filter (fun z => z.height == h)
      = l.filter (fun z => z.height == h) := by
  induction l with
  | nil => rfl
  | cons x xs ih =>
    show (insertDesc x (sortDesc xs)).filter _ = _
    rw [filter_height_insertDesc, List.filter_cons]
    by_cases hx : x.height = h
    · simp [hx, ih]
    · simp [hx, ih]

/-! ## Claim theorems -/

/-- C6: for every input string, `sanitize_filename` returns a string that
contains no occurrence of the characters `< > : " / \ | ? *`, has length at
most 200, and every character of the output is a character of the input. -/
theorem sanitize_filename_spec (s : String) :
    (∀ c ∈ (sanitize_filename s).toList, invalidChar c = false)
  ∧ (sanitize_filename s).length ≤ 200
  ∧ (∀ c ∈ (sanitize_filename s).toList, c ∈ s.toList) := by
  refine ⟨?_, ?_, ?_⟩
  · intro c hc
    rw [toList_sanitize] at hc
    have h1 := List.mem_of_mem_take hc
    have h2 := List.of_mem_filter h1
    simpa using h2
  · show (sanitize_filename s).toList.length ≤ 200
    rw [toList_sanitize]
    exact List.length_take_le _ _
  · intro c hc
    rw [toList_sanitize] at hc
    exact List.mem_of_mem_filter (List.mem_of_mem_take hc)

/-- Witness for C6 at the spec's example input `"My:Video/Title*"`. -/
theorem sanitize_filename_spec_witness :
    invalidChar 'M' = false
  ∧ (sanitize_filename "My:Video/Title*").length ≤ 200
  ∧ 'M' ∈ "My:Video/Title*".toList := by
  have h := sanitize_filename_spec "My:Video/Title*"
  exact ⟨h.1 'M' (by decide), h.2.1, h.2.2 'M' (by decide)⟩

/-- C8: the title sanitizer is idempotent — sanitizing an already-sanitized
string changes nothing, since the survivors of the filter still pass the
filter and the truncated prefix is already within the length bound. -/
theorem sanitize_filename_idem (s : String) :
    sanitize_filename (sanitize_filename s) = sanitize_filename s := by
  have hL : ∀ c ∈ (s.toList.filter (fun c => !invalidChar c)).take 200,
      (!invalidChar c) = true := by
    intro c hc
    have h1 : c ∈ s.toList.filter (fun c => !invalidChar c) :=
      List.mem_of_mem_take hc
    exact (List.mem_filter.mp h1).2
  show List.asString
      ((((s.toList.filter (fun c => !invalidChar c)).take 200).filter
          (fun c => !invalidChar c)).take 200)
    = List.asString ((s.toList.filter (fun c => !invalidChar c)).take 200)
  rw [List.filter_eq_self.mpr hL,
      List.take_of_length_le (List.length_take_le _ _)]

/-- C1: the claim states that after a mid-stream consumer abort the output
file is still deleted. In the code the `unlink` follows the read loop and
is not in a `finally` block, so closing the generator (Python raises
`GeneratorExit` at the suspended `yield` on client disconnect) skips it:
aborting after one of two chunks leaves the output file in place, while a
full consumption does delete it. -/
theorem file_iterator_abort_leaves_output :
    file_iterator_abort [[1], [2]] 1 = true
  ∧ file_iterator_run_all [[1], [2]] = false := by decide

/-- C3: a record's classification in the catalog is a pure function of the
pair (video codec present and truthy and not "none", audio codec present
and truthy and not "none") exactly per the table: video-only records are
classified `"video"`, audio-only `"audio"`, both `"combined"`, and a record
with neither produces no catalog entry, so the catalog (a permutation
obtained by sorting the per-record entries) contains nothing for it. -/
theorem classification_pure :
    (∀ f : RawFormat, Option.map FormatInfo.type (mkFormatInfo f)
        = pureClass (codecTruthy f.vcodec) (codecTruthy f.acodec))
  ∧ (∀ f : RawFormat, codecTruthy f.vcodec = false →
        codecTruthy f.acodec = false → mkFormatInfo f = none)
  ∧ (∀ info : ExtractInfo, info.formats ≠ [] →
        (buildFormats info).Perm (info.formats.filterMap mkFormatInfo)) := by
  have hmap : ∀ f : RawFormat,
      Option.map FormatInfo.type (mkFormatInfo f) = typeLabel f := by
    intro f
    cases htl : typeLabel f <;> simp [mkFormatInfo, htl]
  have htable : ∀ f : RawFormat,
      typeLabel f = pureClass (codecTruthy f.vcodec) (codecTruthy f.acodec) := by
    intro f
    cases hv : codecTruthy f.vcodec <;> cases ha : codecTruthy f.acodec <;>
      simp [typeLabel, pureClass, hv, ha]
  refine ⟨fun f => (hmap f).trans (htable f), ?_, ?_⟩
  · intro f hv ha
    have h1 := (hmap f).trans (htable f)
    rw [hv, ha] at h1
    cases hmk : mkFormatInfo f
    · rfl
    · rw [hmk] at h1
      simp [pureClass] at h1
  · intro info hne
    have hcollect : collectFormats info = info.formats.filterMap mkFormatInfo := by
      have hempty : info.formats.isEmpty = false := by
        cases hf : info.formats with
        | nil => exact absurd hf hne
        | cons a l => rfl
      simp [collectFormats, hempty]
    show (sortDesc (collectFormats info)).Perm _
    rw [hcollect]
    exact sortDesc_perm _

/-- Witness for C3: a record with both codecs falsy is dropped, and the
catalog of the concrete three-record input is a permutation of its
per-record entries. -/
theorem classification_pure_witness :
    Option.map FormatInfo.type (mkFormatInfo rawNeither)
      = pureClass (codecTruthy rawNeither.vcodec) (codecTruthy rawNeither.acodec)
  ∧ mkFormatInfo rawNeither = none
  ∧ (buildFormats infoHeights).Perm (infoHeights.formats.filterMap mkFormatInfo) :=
  ⟨classification_pure.1 rawNeither,
   classification_pure.2.1 rawNeither rfl rfl,
   classification_pure.2.2 infoHeights (by decide)⟩

/-- C4: the catalog is sorted by `height` descending (adjacent-pairwise,
hence any two entries in order), the sort is stable — for every height the
subsequence of entries of that height is exactly the one of the unsorted
list, so any two descriptors of equal height keep their original relative
order — and the catalog is a permutation of the unsorted list. -/
theorem catalog_sorted_stable (info : ExtractInfo) :
    List.Pairwise (fun a b => b.height ≤ a.height) (buildFormats info)
  ∧ (∀ h : Nat, (buildFormats info).filter (fun z => z.height == h)
      = (collectFormats info).filter (fun z => z.height == h))
  ∧ (buildFormats info).Perm (collectFormats info) :=
  ⟨sortDesc_sorted (collectFormats info),
   fun h => filter_height_sortDesc h (collectFormats info),
   sortDesc_perm (collectFormats info)⟩

/-- Witness for C4 at the spec's example input (heights 720, 1080, 480):
the theorem gives sortedness, and the resulting order is [1080, 720, 480]. -/
theorem catalog_sorted_stable_witness :
    List.Pairwise (fun a b => b.height ≤ a.height) (buildFormats infoHeights)
  ∧ (buildFormats infoHeights).map (fun z => z.height) = [1080, 720, 480] :=
  ⟨(catalog_sorted_stable infoHeights).1, by decide⟩

/-- C7 counterexample: the claim says the synthesized descriptor's
`resolution` is `"?x?"` whenever the width or the height is absent; on an
input with absent width but height 720 the code yields `"?x720"`. -/
theorem fallback_resolution_cex :
    infoNoWidth.formats = []
  ∧ strTruthy infoNoWidth.url = true
  ∧ infoNoWidth.width = none
  ∧ (buildFormats infoNoWidth).map FormatInfo.resolution = ["?x720"]
  ∧ ("?x720" : String) ≠ "?x?" := by decide

/-- C7 (amended): with no per-format listing and a truthy direct `url`, the
catalog is exactly one synthesized `combined` descriptor built from the
ext/width/height/filesize fields present, whose `resolution` substitutes
`"?"` for each absent dimension separately — in particular it is `"?x?"`
when both width and height are absent. -/
theorem fallback_descriptor (info : ExtractInfo)
    (hf : info.formats = []) (hu : strTruthy info.url = true) :
    buildFormats info = [syntheticFormat info]
  ∧ (syntheticFormat info).type = "combined"
  ∧ (syntheticFormat info).format_id = "default"
  ∧ (syntheticFormat info).ext = (info.ext).getD "mp4"
  ∧ (syntheticFormat info).filesize = info.filesize
  ∧ (syntheticFormat info).height = (info.height).getD 0
  ∧ (syntheticFormat info).resolution = dimStr info.width ++ "x" ++ dimStr info.height
  ∧ (info.width = none → info.height = none →
      (syntheticFormat info).resolution = "?x?") := by
  refine ⟨?_, rfl, rfl, rfl, rfl, rfl, rfl, ?_⟩
  · simp [buildFormats, collectFormats, hf, hu, sortDesc, insertDesc]
  · intro hw hh
    show dimStr info.width ++ "x" ++ dimStr info.height = "?x?"
    rw [hw, hh]
    rfl

/-- Witness for C7 (amended) at a concrete input with both dimensions
absent. -/
theorem fallback_descriptor_witness :
    buildFormats infoNoDims = [syntheticFormat infoNoDims]
  ∧ (syntheticFormat infoNoDims).resolution = "?x?" :=
  ⟨(fallback_descriptor infoNoDims rfl rfl).1,
   (fallback_descriptor infoNoDims rfl rfl).2.2.2.2.2.2.2 rfl rfl⟩

theorem unlinkIfExists_eq_false (b : Bool) : unlinkIfExists b = false := by
  cases b <;> rfl

theorem purgeJob_eq (fs : JobFS) :
    purgeJob fs = { video := false, audio := false, output := false } := by
  simp [purgeJob, unlinkIfExists_eq_false]

theorem download_merged_meta_error (env : DownloadEnv) (e : String)
    (hm : env.metaFetch = Except.error e) :
    download_merged env
      = (DLResult.httpError 500 e,
         { video := false, audio := false, output := false }) := by
  simp [download_merged, hm, purgeJob_eq]

theorem download_merged_video_error (env : DownloadEnv) (info : ExtractInfo)
    (e : String) (hm : env.metaFetch = Except.ok info)
    (hv : env.videoFetch = Except.error e) :
    download_merged env
      = (DLResult.httpError 500 e,
         { video := false, audio := false, output := false }) := by
  simp [download_merged, hm, hv, purgeJob_eq]

theorem download_merged_audio_error (env : DownloadEnv) (info : ExtractInfo)
    (e : String) (hm : env.metaFetch = Except.ok info)
    (hv : env.videoFetch = Except.ok ())
    (ha : env.audioFetch = Except.error e) :
    download_merged env
      = (DLResult.httpError 500 e,
         { video := false, audio := false, output := false }) := by
  simp [download_merged, hm, hv, ha, purgeJob_eq]

theorem download_merged_mux_error (env : DownloadEnv) (info : ExtractInfo)
    (hm : env.metaFetch = Except.ok info)
    (hv : env.videoFetch = Except.ok ())
    (ha : env.audioFetch = Except.ok ())
    (hr : env.ffmpegReturncode ≠ 0) :
    download_merged env
      = (DLResult.httpError 500 ("FFmpeg failed: " ++ env.ffmpegStderr),
         { video := false, audio := false, output := false }) := by
  have hb : (env.ffmpegReturncode != 0) = true := by
    simpa using hr
  simp [download_merged, hm, hv, ha, hb, purgeJob_eq]

theorem download_merged_success (env : DownloadEnv) (info : ExtractInfo)
    (hm : env.metaFetch = Except.ok info)
    (hv : env.videoFetch = Except.ok ())
    (ha : env.audioFetch = Except.ok ())
    (hr : env.ffmpegReturncode = 0) :
    download_merged env
      = (DLResult.streaming
           (sanitize_filename ((info.title).getD "video") ++ ".mp4"),
         { video := false, audio := false, output := true }) := by
  simp [download_merged, hm, hv, ha, hr]

/-- C2: whenever any pipeline stage fails — metadata fetch, either stream
download, or the combiner exiting non-zero — the caller gets a 500 error
whose detail is the stage's diagnostic (for the combiner,
`"FFmpeg failed: "` followed by its stderr text), and afterwards none of
the job's three workspace files exist, whichever of them existed when the
failure hit; the per-path deletion skips absent paths, so purging is
idempotent and deleting an already-absent path is not an error. -/
theorem download_failure_cleanup (env : DownloadEnv)
    (h : env.metaFetch.isOk = false ∨ env.videoFetch.isOk = false
       ∨ env.audioFetch.isOk = false ∨ env.ffmpegReturncode ≠ 0) :
    ((download_merged env).2 = { video := false, audio := false, output := false }
      ∧ ∃ d, (download_merged env).1 = DLResult.httpError 500 d)
  ∧ (∀ e, env.metaFetch = Except.error e →
      (download_merged env).1 = DLResult.httpError 500 e)
  ∧ (∀ (info : ExtractInfo) (e : String), env.metaFetch = Except.ok info →
      env.videoFetch = Except.error e →
      (download_merged env).1 = DLResult.httpError 500 e)
  ∧ (∀ (info : ExtractInfo) (e : String), env.metaFetch = Except.ok info →
      env.videoFetch = Except.ok () → env.audioFetch = Except.error e →
      (download_merged env).1 = DLResult.httpError 500 e)
  ∧ (∀ info : ExtractInfo, env.metaFetch = Except.ok info →
      env.videoFetch = Except.ok () → env.audioFetch = Except.ok () →
      env.ffmpegReturncode ≠ 0 →
      (download_merged env).1
        = DLResult.httpError 500 ("FFmpeg failed: " ++ env.ffmpegStderr))
  ∧ (∀ fs : JobFS, purgeJob (purgeJob fs) = purgeJob fs) := by
  refine ⟨?_, ?_, ?_, ?_, ?_, fun fs => by rw [purgeJob_eq, purgeJob_eq]⟩
  · cases hm : env.metaFetch with
    | error e =>
      rw [download_merged_meta_error env e hm]
      exact ⟨rfl, e, rfl⟩
    | ok info =>
      cases hv : env.videoFetch with
      | error e =>
        rw [download_merged_video_error env info e hm hv]
        exact ⟨rfl, e, rfl⟩
      | ok u =>
        cases u
        cases ha : env.audioFetch with
        | error e =>
          rw [download_merged_audio_error env info e hm hv ha]
          exact ⟨rfl, e, rfl⟩
        | ok u2 =>
          cases u2
          have hr : env.ffmpegReturncode ≠ 0 := by
            rcases h with h1 | h2 | h3 | h4
            · rw [hm] at h1
              simp [Except.isOk, Except.toBool] at h1
            · rw [hv] at h2
              simp [Except.isOk, Except.toBool] at h2
            · rw [ha] at h3
              simp [Except.isOk, Except.toBool] at h3
            · exact h4
          rw [download_merged_mux_error env info hm hv ha hr]
          exact ⟨rfl, "FFmpeg failed: " ++ env.ffmpegStderr, rfl⟩
  · intro e hm
    rw [download_merged_meta_error env e hm]
  · intro info e hm hv
    rw [download_merged_video_error env info e hm hv]
  · intro info e hm hv ha
    rw [download_merged_audio_error env info e hm hv ha]
  · intro info hm hv ha hr
    rw [download_merged_mux_error env info hm hv ha hr]

/-- Witness for C2 at the spec's scenario: the combiner exits with status 2
and stderr `"invalid data found"`; the response is a 500 carrying that
diagnostic and no job file remains. -/
theorem download_failure_cleanup_witness :
    (download_merged envMuxFail).2
      = { video := false, audio := false, output := false }
  ∧ (download_merged envMuxFail).1
      = DLResult.httpError 500 ("FFmpeg failed: " ++ "invalid data found") := by
  have h := download_failure_cleanup envMuxFail
    (Or.inr (Or.inr (Or.inr (by decide))))
  exact ⟨h.1.1, h.2.2.2.2.1 infoSample rfl rfl rfl (by decide)⟩

/-- C10: on a successful download the suggested filename in the response is
the sanitized title followed by `".mp4"`, and when the metadata carries no
title the fallback is `"video.mp4"` (from `info.get('title', 'video')`). -/
theorem download_filename_spec (env : DownloadEnv) (info : ExtractInfo)
    (hm : env.metaFetch = Except.ok info)
    (hv : env.videoFetch = Except.ok ())
    (ha : env.audioFetch = Except.ok ())
    (hr : env.ffmpegReturncode = 0) :
    (download_merged env).1
      = DLResult.streaming
          (sanitize_filename ((info.title).getD "video") ++ ".mp4")
  ∧ (info.title = none →
      (download_merged env).1 = DLResult.streaming "video.mp4") := by
  constructor
  · rw [download_merged_success env info hm hv ha hr]
  · intro ht
    rw [download_merged_success env info hm hv ha hr, ht]
    rfl

/-- Witness for C10: a concrete successful environment with no title gets
`"video.mp4"`, and one with title `"My:Video/Title*"` gets the sanitized
`"MyVideoTitle.mp4"`. -/
theorem download_filename_spec_witness :
    (download_merged envNoTitle).1 = DLResult.streaming "video.mp4"
  ∧ (download_merged envAllOk).1
      = DLResult.streaming
          (sanitize_filename ((infoSample.title).getD "video") ++ ".mp4") :=
  ⟨(download_filename_spec envNoTitle { infoSample with title := none }
      rfl rfl rfl rfl).2 rfl,
   (download_filename_spec envAllOk infoSample rfl rfl rfl rfl).1⟩

/-- C5 counterexample: the claim says the stale-file sweep is invoked at
the start of every download-and-mux request, but `download_merged` contains
no `cleanup_old_files()` call at all — on a concrete request (the
all-successful environment) no sweep event occurs. -/
theorem download_sweep_missing : Ev.sweep ∉ download_events envAllOk := by
  decide

/-- C5 (amended): the stale-file sweep is invoked once, first, by every
catalog (list-formats) request, but the download handler never invokes it;
the sweep itself removes exactly the regular files whose last-modified age
exceeds 3600 seconds and leaves every other entry untouched (per-file
deletion errors are suppressed in the code and absent from the model). -/
theorem sweep_invocation_and_semantics :
    (∀ fenv : FormatsEnv, (get_formats_events fenv).head? = some Ev.sweep
        ∧ Ev.sweep ∉ (get_formats_events fenv).tail)
  ∧ (∀ denv : DownloadEnv, Ev.sweep ∉ download_events denv)
  ∧ (∀ (now : Int) (files : List FileEntry) (f : FileEntry),
        f ∈ cleanup_old_files now files
          ↔ f ∈ files ∧ ¬(f.isFile = true ∧ now - f.mtime > 3600)) := by
  refine ⟨?_, ?_, ?_⟩
  · intro fenv
    refine ⟨rfl, ?_⟩
    simp only [get_formats_events, List.tail_cons]
    by_cases hck : strTruthy fenv.cookiesContent <;> simp [hck]
  · intro denv
    cases hm : denv.metaFetch with
    | error e =>
      by_cases hck : strTruthy denv.cookiesContent <;>
        simp [download_events, hm, hck]
    | ok info =>
      cases hv : denv.videoFetch with
      | error e =>
        by_cases hck : strTruthy denv.cookiesContent <;>
          simp [download_events, hm, hv, hck]
      | ok u =>
        cases ha : denv.audioFetch with
        | error e =>
          by_cases hck : strTruthy denv.cookiesContent <;>
            simp [download_events, hm, hv, ha, hck]
        | ok u2 =>
          by_cases hck : strTruthy denv.cookiesContent <;>
            simp [download_events, hm, hv, ha, hck]
  · intro now files f
    simp only [cleanup_old_files, List.mem_filter, Bool.not_eq_true',
      Bool.and_eq_false_iff]
    constructor
    · rintro ⟨h1, h2⟩
      refine ⟨h1, ?_⟩
      rintro ⟨hfile, hage⟩
      rcases h2 with h2 | h2
      · rw [hfile] at h2
        cases h2
      · rw [decide_eq_false_iff_not] at h2
        exact h2 hage
    · rintro ⟨h1, h2⟩
      refine ⟨h1, ?_⟩
      by_cases hfile : f.isFile = true
      · right
        rw [decide_eq_false_iff_not]
        intro hage
        exact h2 ⟨hfile, hage⟩
      · left
        cases hb : f.isFile with
        | false => rfl
        | true => exact absurd hb hfile

/-- Witness for C5 (amended) at concrete inputs: a formats request starts
with the sweep, a concrete download request never sweeps, and the sweep
keeps a 100-second-old regular file. -/
theorem sweep_invocation_and_semantics_witness :
    (get_formats_events fenvPlain).head? = some Ev.sweep
  ∧ (Ev.sweep ∈ download_events envMuxFail → False)
  ∧ (feNew ∈ cleanup_old_files 10000 [feOld, feNew]
      ↔ feNew ∈ [feOld, feNew]
        ∧ ¬(feNew.isFile = true ∧ (10000 : Int) - feNew.mtime > 3600)) :=
  ⟨(sweep_invocation_and_semantics.1 fenvPlain).1,
   fun hmem => sweep_invocation_and_semantics.2.1 envMuxFail hmem,
   sweep_invocation_and_semantics.2.2 10000 [feOld, feNew] feNew⟩

theorem readChunksAux_nil (size fuel : Nat) :
    readChunksAux size fuel [] = [] := by
  cases fuel <;> rfl

theorem drop_cons_pred (size : Nat) (hs : 0 < size) (a : Nat)
    (rest : List Nat) : rest.drop (size - 1) = (a :: rest).drop size := by
  cases size with
  | zero => omega
  | succ k => simp

theorem readChunksAux_flatten (size : Nat) (hs : 0 < size) :
    ∀ (fuel : Nat) (l : List Nat), l.length ≤ fuel →
      (readChunksAux size fuel l).flatten = l := by
  intro fuel
  induction fuel with
  | zero =>
    intro l hl
    have hnil : l = [] := List.eq_nil_of_length_eq_zero (Nat.le_zero.mp hl)
    subst hnil
    rfl
  | succ fuel ih =>
    intro l hl
    cases l with
    | nil => rfl
    | cons a rest =>
      have hlen : (rest.drop (size - 1)).length ≤ fuel := by
        rw [List.length_drop]
        simp only [List.length_cons] at hl
        omega
      simp only [readChunksAux, List.flatten_cons]
      rw [ih _ hlen, drop_cons_pred size hs a rest, List.take_append_drop]

theorem readChunksAux_chunk_bounds (size : Nat) (hs : 0 < size) :
    ∀ (fuel : Nat) (l : List Nat), l.length ≤ fuel →
      ∀ c ∈ readChunksAux size fuel l, c ≠ [] ∧ c.length ≤ size := by
  intro fuel
  induction fuel with
  | zero =>
    intro l hl c hc
    simp [readChunksAux] at hc
  | succ fuel ih =>
    intro l hl c hc
    cases l with
    | nil => simp [readChunksAux] at hc
    | cons a rest =>
      simp only [readChunksAux, List.mem_cons] at hc
      rcases hc with rfl | hc2
      · refine ⟨?_, List.length_take_le _ _⟩
        cases size with
        | zero => omega
        | succ k => simp
      · have hlen : (rest.drop (size - 1)).length ≤ fuel := by
          rw [List.length_drop]
          simp only [List.length_cons] at hl
          omega
        exact ih _ hlen c hc2

theorem readChunksAux_full_chunks (size : Nat) (hs : 0 < size) :
    ∀ (fuel : Nat) (l : List Nat), l.length ≤ fuel →
      ∀ c ∈ (readChunksAux size fuel l).dropLast, c.length = size := by
  intro fuel
  induction fuel with
  | zero =>
    intro l hl c hc
    simp [readChunksAux] at hc
  | succ fuel ih =>
    intro l hl c hc
    cases l with
    | nil => simp [readChunksAux] at hc
    | cons a rest =>
      have hlen : (rest.drop (size - 1)).length ≤ fuel := by
        rw [List.length_drop]
        simp only [List.length_cons] at hl
        omega
      simp only [readChunksAux] at hc
      cases hcs : readChunksAux size fuel (rest.drop (size - 1)) with
      | nil =>
        rw [hcs] at hc
        simp at hc
      | cons d ds =>
        rw [hcs] at hc
        have hdl : ((a :: rest).take size :: d :: ds).dropLast
            = (a :: rest).take size :: (d :: ds).dropLast := rfl
        rw [hdl, List.mem_cons] at hc
        rcases hc with rfl | hc2
        · have hrest : rest.drop (size - 1) ≠ [] := by
            intro hnil
            rw [hnil, readChunksAux_nil] at hcs
            cases hcs
          have hlong : size - 1 < rest.length := by
            by_contra hle
            exact hrest (List.drop_eq_nil_of_le (Nat.le_of_not_lt hle))
          rw [List.length_take, List.length_cons]
          omega
        · exact ih _ hlen c (hcs ▸ hc2)

/-- C9: for every file contents and positive chunk size, the generator's
chunk sequence concatenates back to exactly the contents, every chunk is
non-empty and at most the chunk size, and every chunk except possibly the
last is exactly the chunk size; `file_iterator` instantiates this at the
1 MiB (1048576-byte) chunk size of main.py line 273. -/
theorem file_iterator_chunks_spec :
    (∀ size : Nat, 0 < size → ∀ content : List Nat,
        (readChunksWith size content).flatten = content
      ∧ (∀ c ∈ readChunksWith size content, c ≠ [] ∧ c.length ≤ size)
      ∧ (∀ c ∈ (readChunksWith size content).dropLast, c.length = size))
  ∧ (∀ content : List Nat,
      file_iterator_chunks content = readChunksWith 1048576 content) := by
  refine ⟨fun size hs content => ⟨?_, ?_, ?_⟩, fun content => rfl⟩
  · exact readChunksAux_flatten size hs content.length content (Nat.le_refl _)
  · exact readChunksAux_chunk_bounds size hs content.length content (Nat.le_refl _)
  · exact readChunksAux_full_chunks size hs content.length content (Nat.le_refl _)

/-- Witness for C9 at chunk size 2 and contents [1, 2, 3]: the chunks are
[[1, 2], [3]]; their concatenation restores the contents, the first chunk
is full, the last is non-empty and within bound. -/
theorem file_iterator_chunks_spec_witness :
    (readChunksWith 2 [1, 2, 3]).flatten = [1, 2, 3]
  ∧ (([1, 2] : List Nat) ≠ [] ∧ ([1, 2] : List Nat).length ≤ 2)
  ∧ ([1, 2] : List Nat).length = 2 := by
  have h := file_iterator_chunks_spec.1 2 (by decide) [1, 2, 3]
  exact ⟨h.1, h.2.1 [1, 2] (by decide), h.2.2 [1, 2] (by decide)⟩
